import Mathlib

/-!
Shallow embedding of the upload-process-publish pipeline of `src/main.py`
(a small Flask application that stages an uploaded image locally, publishes
it to a cloud object store, asks an external caption service for a
title/description JSON document, persists that document next to the image,
and serves a detail page for each stored image).

External collaborators (the Google Cloud Storage client, the Gemini caption
service, the Python `json` module's string-level parser, and the fallibility
of disk and network operations) are modelled by an `Env` record; the mutable
state touched by the code (the object-store bucket and the local staging
directory `files/`) is a `World` record threaded explicitly through each
operation, which returns the updated world together with an
`Except PyErr` result standing for Python's raise/return control flow.
-/

namespace Main

/-- Python exception kinds that the code in `src/main.py` can raise:
disk I/O errors, object-store (network/auth/missing-blob) errors, caption
service errors, `json.JSONDecodeError`, `FileNotFoundError` from
`os.remove`, `KeyError` from dict subscripting, and the object-store
not-found error raised by a download of a missing blob. -/
inductive PyErr where
  | ioError
  | gcsError
  | gcsNotFound
  | geminiError
  | jsonDecodeError
  | fileNotFound
  | keyError
deriving DecidableEq, Repr

/-- The message `str(e)` used when an exception is rendered into a response. -/
def errMsg : PyErr → String
  | .ioError => "I/O error"
  | .gcsError => "object store error"
  | .gcsNotFound => "404 blob not found"
  | .geminiError => "caption service error"
  | .jsonDecodeError => "Expecting value: line 1 column 1 (char 0)"
  | .fileNotFound => "No such file or directory"
  | .keyError => "KeyError"

/-- JSON values as far as this program manipulates them: the caption
service is asked for an object with two string attributes, and the code
only ever subscripts the parsed document with string keys expecting string
values, so objects are modelled with string fields; any non-object
document (which the code would dump and later fail to subscript) is
covered by the string constructor. -/
inductive JsonVal where
  | jstr (s : String)
  | jobj (fields : List (String × String))
deriving DecidableEq, Repr

/-- Dict subscripting `metadata[key]`: first binding of the key in an
object, failure (`KeyError` / `TypeError`) otherwise. -/
def getField : JsonVal → String → Option String
  | .jstr _, _ => none
  | .jobj fields, key => List.lookup key fields

/-- The fallback document of `generate_image_caption`
(src/main.py line 82). -/
def defaultMetadata : JsonVal :=
  .jobj [("title", "Untitled"), ("description", "No description available.")]

/-- Contents of an object-store blob or of a local staged file: either raw
uploaded bytes or a JSON document written by `json.dump`. -/
inductive Blob where
  | bytes (content : String)
  | jsonDoc (v : JsonVal)
deriving DecidableEq, Repr

/-- The mutable state the program touches: the object-store bucket
(key-addressed) and the local staging directory, both as association
lists from name to contents. -/
structure World where
  gcs : List (String × Blob)
  localFs : List (String × Blob)
deriving DecidableEq, Repr

/-- Overwriting insert into a key-addressed map (an object-store `put` or
an `open(path, "w")` write): the new binding shadows and removes any old
binding of the same key. -/
def mapPut (m : List (String × Blob)) (k : String) (v : Blob) :
    List (String × Blob) :=
  (k, v) :: m.filter (fun p => p.1 != k)

/-- Deletion from a key-addressed map (`os.remove`). -/
def mapDel (m : List (String × Blob)) (k : String) : List (String × Blob) :=
  m.filter (fun p => p.1 != k)

/-- Number of entries stored under a key (used to state that the store
holds exactly one object under a given name). -/
def keyCount (m : List (String × Blob)) (k : String) : Nat :=
  (m.filter (fun p => p.1 == k)).length

/-- Fuelled scanner behind `replaceAll`: at each position, if the pattern
matches, emit the replacement and skip past the match, otherwise keep the
character; every step consumes at least one input character, so fuel
equal to the input length is always enough. -/
def replaceAllF (old new : List Char) : Nat → List Char → List Char
  | _, [] => []
  | 0, l => l
  | fuel + 1, c :: rest =>
    if old ≠ [] ∧ old <+: (c :: rest) then
      new ++ replaceAllF old new fuel (List.drop (old.length - 1) rest)
    else
      c :: replaceAllF old new fuel rest

/-- Python's `str.replace(old, new)` on character lists: scan left to
right, replacing each non-overlapping occurrence of `old`; an empty
pattern is never used by the code and is left as the identity here. -/
def replaceAll (old new l : List Char) : List Char :=
  replaceAllF old new l.length l

/-- Python's `str.replace(old, new)` on strings. -/
def pyReplace (s old new : String) : String :=
  String.mk (replaceAll old.data new.data s.data)

/-- Python's `str.strip()`: remove leading and trailing whitespace. -/
def pyStrip (s : String) : String :=
  String.mk
    (((s.data.dropWhile Char.isWhitespace).reverse.dropWhile
      Char.isWhitespace).reverse)

/-- The staging directory `LOCAL_DIR = "files"` (src/main.py line 14). -/
def LOCAL_DIR : String := "files"

/-- The fixed bucket name (src/main.py line 13). -/
def BUCKET_NAME : String := "sutcliff-fau-cloud-native"

/-- Python `os.path.join(dir, name)` for the flat joins used here. -/
def osPathJoin (d f : String) : String := d ++ "/" ++ f

/-- Local staging path of a name, `os.path.join(LOCAL_DIR, name)`. -/
def localPath (f : String) : String := osPathJoin LOCAL_DIR f

/-- The metadata-name derivation used at src/main.py lines 136, 141 and
159: `s.replace(".jpeg", ".json").replace(".jpg", ".json")`. -/
def deriveJsonName (s : String) : String :=
  pyReplace (pyReplace s ".jpeg" ".json") ".jpg" ".json"

/-- The external collaborators of one request, and the outcomes of the
fallible external operations during it: whether the local disk writes
succeed, whether each object-store publish succeeds (per key), whether
the caption-service round trip succeeds, the text of the caption
service's response (`response.text`), and the string-level behaviour of
`json.loads` on that text. -/
structure Env where
  saveOk : Bool
  jsonWriteOk : Bool
  geminiOk : Bool
  gcsPutOk : String → Bool
  captionText : String
  jloads : String → Option JsonVal

/-- Flask `file.save(local_path)` (src/main.py line 127): writes the
uploaded bytes into the staging area, or raises on a disk error. -/
def fileSave (env : Env) (path content : String) (w : World) :
    World × Except PyErr Unit :=
  if env.saveOk then
    ({w with localFs := mapPut w.localFs path (Blob.bytes content)}, .ok ())
  else
    (w, .error .ioError)

/-- The `upload_to_gcs` helper (src/main.py lines 40-44):
`blob.upload_from_filename(file_path)` reads the local staged file
(raising `FileNotFoundError` if it is absent) and publishes its contents
under `blob_name`, or raises on a network/auth failure. -/
def upload_to_gcs (env : Env) (file_path blob_name : String) (w : World) :
    World × Except PyErr Unit :=
  match List.lookup file_path w.localFs with
  | none => (w, .error .fileNotFound)
  | some content =>
    if env.gcsPutOk blob_name then
      ({w with gcs := mapPut w.gcs blob_name content}, .ok ())
    else
      (w, .error .gcsError)

/-- The `download_from_gcs` helper (src/main.py lines 46-52): fetches the
blob `file_name` into `files/file_name` and returns that local path, or
raises not-found when the bucket has no such key. -/
def download_from_gcs (file_name : String) (w : World) :
    World × Except PyErr String :=
  match List.lookup file_name w.gcs with
  | none => (w, .error .gcsNotFound)
  | some content =>
    ({w with localFs := mapPut w.localFs (localPath file_name) content},
     .ok (localPath file_name))

/-- The pure part of `generate_image_caption` (src/main.py lines 65-88)
once the staged image exists: the Gemini upload/generate round trip
either fails (network/auth), or yields `response.text`; the code strips
it, substitutes the default metadata when the stripped text is empty, and
otherwise hands it to `json.loads`, whose failure on non-empty invalid
text propagates (the `try/except` around this is commented out in the
source). -/
def captionResult (env : Env) : Except PyErr JsonVal :=
  if env.geminiOk then
    let response_text := pyStrip env.captionText
    if response_text ≠ "" then
      match env.jloads response_text with
      | some v => .ok v
      | none => .error .jsonDecodeError
    else
      .ok defaultMetadata
  else
    .error .geminiError

/-- The `generate_image_caption` function (src/main.py lines 65-88):
`genai.upload_file(image_path, ...)` reads the staged file (raising if it
is absent), then the caption round trip proceeds as in `captionResult`.
The world is not modified. -/
def generate_image_caption (env : Env) (image_path : String) (w : World) :
    World × Except PyErr JsonVal :=
  match List.lookup image_path w.localFs with
  | none => (w, .error .fileNotFound)
  | some _ => (w, captionResult env)

/-- The metadata persist step, `open(json_path, "w")` plus
`json.dump(metadata, json_file)` (src/main.py lines 137-138): writes the
JSON document into the staging area, or raises on a disk error. -/
def jsonDump (env : Env) (path : String) (v : JsonVal) (w : World) :
    World × Except PyErr Unit :=
  if env.jsonWriteOk then
    ({w with localFs := mapPut w.localFs path (Blob.jsonDoc v)}, .ok ())
  else
    (w, .error .ioError)

/-- Reading metadata back, `open(json_path, "r")` plus
`json.load(json_file)` (src/main.py lines 161-162): raises if the file is
absent, raises a decode error if its contents are not a JSON document,
and returns the parsed document otherwise. -/
def jsonLoadFile (path : String) (w : World) : World × Except PyErr JsonVal :=
  match List.lookup path w.localFs with
  | none => (w, .error .fileNotFound)
  | some (Blob.bytes _) => (w, .error .jsonDecodeError)
  | some (Blob.jsonDoc v) => (w, .ok v)

/-- Python `os.remove(path)` (src/main.py lines 145-146): deletes the
staged file, raising `FileNotFoundError` when the path does not exist. -/
def osRemove (path : String) (w : World) : World × Except PyErr Unit :=
  match List.lookup path w.localFs with
  | none => (w, .error .fileNotFound)
  | some _ => ({w with localFs := mapDel w.localFs path}, .ok ())

/-- Sequencing of two fallible world-transforming steps: a raise in the
first step skips the second and propagates, as Python exception flow
does inside the handler's `try` block. -/
def stepBind {α β : Type} (r : World × Except PyErr α)
    (f : α → World → World × Except PyErr β) : World × Except PyErr β :=
  match r with
  | (w, .ok a) => f a w
  | (w, .error e) => (w, .error e)

/-- HTTP responses the two handlers produce: a Flask `redirect` (status
302), a `jsonify({"error": ...}), 500` pair, or a plain HTML string
(status 200). -/
inductive HttpResponse where
  | redirect (location : String)
  | jsonError (msg : String) (status : Nat)
  | htmlPage (body : String)
deriving DecidableEq, Repr

/-- HTTP status code of a response as Flask assigns it: a redirect is
302, a bare string return is 200, and the explicit tuple returns carry
their own status. -/
def statusOf : HttpResponse → Nat
  | .redirect _ => 302
  | .jsonError _ s => s
  | .htmlPage _ => 200

/-- Body of the `try` block of the `/upload` handler (src/main.py lines
124-148): stage the upload, publish the image, caption it, persist and
publish the metadata, delete both staged files, and return the redirect
target `/files/{filename}`. -/
def uploadBody (env : Env) (filename content : String) (w : World) :
    World × Except PyErr String :=
  let local_path := localPath filename
  stepBind (fileSave env local_path content w) (fun _ w1 =>
  stepBind (upload_to_gcs env local_path filename w1) (fun _ w2 =>
  stepBind (generate_image_caption env local_path w2) (fun metadata w3 =>
  let json_path := deriveJsonName local_path
  stepBind (jsonDump env json_path metadata w3) (fun _ w4 =>
  let json_filename := deriveJsonName filename
  stepBind (upload_to_gcs env json_path json_filename w4) (fun _ w5 =>
  stepBind (osRemove local_path w5) (fun _ w6 =>
  stepBind (osRemove json_path w6) (fun _ w7 =>
  (w7, .ok ("/files/" ++ filename)))))))))

/-- The `/upload` route handler (src/main.py lines 121-152): on success a
redirect to the detail view, and any exception from the pipeline is
caught and rendered as `jsonify({"error": str(e)}), 500`. -/
def upload (env : Env) (filename content : String) (w : World) :
    World × HttpResponse :=
  match uploadBody env filename content w with
  | (w', .ok target) => (w', .redirect target)
  | (w', .error e) => (w', .jsonError (errMsg e) 500)

/-- Outcome of the `/files/<filename>` handler before HTML rendering:
either the composed detail view (title, filename, description) built in
the `try` block, or the caught exception rendered by the `except`
block. -/
inductive GetOutcome where
  | page (title filename description : String)
  | errorPage (msg : String)
deriving DecidableEq, Repr

/-- Body of the `get_file` handler (src/main.py lines 154-173): download
the image, download the derived metadata blob, parse it, subscript
`title` and `description`, and compose the page; any exception is caught
and becomes an error outcome. -/
def get_file (filename : String) (w : World) : World × GetOutcome :=
  match download_from_gcs filename w with
  | (w1, .error e) => (w1, .errorPage (errMsg e))
  | (w1, .ok _) =>
    match download_from_gcs (deriveJsonName filename) w1 with
    | (w2, .error e) => (w2, .errorPage (errMsg e))
    | (w2, .ok json_path) =>
      match jsonLoadFile json_path w2 with
      | (w3, .error e) => (w3, .errorPage (errMsg e))
      | (w3, .ok metadata) =>
        match getField metadata "title" with
        | none => (w3, .errorPage (errMsg .keyError))
        | some title =>
          match getField metadata "description" with
          | none => (w3, .errorPage (errMsg .keyError))
          | some description => (w3, .page title filename description)

/-- HTML detail page composed on the success path of `get_file`
(src/main.py lines 164-169), whitespace normalised. -/
def pageHtml (title filename description : String) : String :=
  "<h2>" ++ title ++ "</h2>" ++
  "<img src=\"/image/" ++ filename ++ "\" width=\"500\">" ++
  "<p>" ++ description ++ "</p>" ++
  "<p><a href=\"/\">Back</a></p>"

/-- HTML error fragment returned by the `except` block of `get_file`
(src/main.py line 173). -/
def errorHtml (msg : String) : String :=
  "<p>Error fetching file: " ++ msg ++ "</p>"

/-- Rendering of a `get_file` outcome as the Flask response: both arms
return a bare string, so both carry status 200. -/
def renderGetOutcome : GetOutcome → HttpResponse
  | .page t f d => .htmlPage (pageHtml t f d)
  | .errorPage m => .htmlPage (errorHtml m)

/-- The `/files/<filename>` route as Flask sees it: handler body plus
rendering. -/
def get_file_route (filename : String) (w : World) : World × HttpResponse :=
  ((get_file filename w).1, renderGetOutcome (get_file filename w).2)

/-- Recognises a redirect response (the success signal of `/upload`). -/
def isRedirect : HttpResponse → Bool
  | .redirect _ => true
  | _ => false

/-- Recognises the error arm of a `get_file` outcome. -/
def isErrorOutcome : GetOutcome → Bool
  | .errorPage _ => true
  | .page _ _ _ => false

/-- Modelled from the spec: the retrieval-failure condition of §4.2 —
the image object is missing, or the derived metadata object is missing,
or the fetched Caption Record cannot be read as the expected two-field
`title`/`description` structure. Stated against the object store alone,
to be compared with what `get_file` actually does. -/
def specRetrievalFails (filename : String) (w : World) : Bool :=
  match List.lookup filename w.gcs with
  | none => true
  | some _ =>
    match List.lookup (deriveJsonName filename) w.gcs with
    | none => true
    | some (Blob.bytes _) => true
    | some (Blob.jsonDoc m) =>
      (getField m "title").isNone || (getField m "description").isNone


/-- Concrete request fixtures used to exercise the model on closed inputs:
an all-healthy environment whose caption response is empty. -/
def envAllOk : Env :=
  ⟨true, true, true, fun _ => true, "", fun _ => none⟩

/-- Healthy environment whose caption service answers with the text "CAP",
which parses into a two-field document. -/
def envCat : Env :=
  ⟨true, true, true, fun _ => true, "CAP",
   fun s => if s = "CAP" then
      some (JsonVal.jobj [("title", "Cat"), ("description", "A cat.")])
    else none⟩

/-- Healthy environment whose caption response is non-empty but is not
valid JSON. -/
def envBadJson : Env :=
  ⟨true, true, true, fun _ => true, "oops", fun _ => none⟩

/-- Environment in which the local staging write fails. -/
def envSaveFail : Env :=
  ⟨false, true, true, fun _ => true, "", fun _ => none⟩

/-- Environment in which publishing the blob `cat.jpg` fails. -/
def envPutImgFail : Env :=
  ⟨true, true, true, fun k => k != "cat.jpg", "", fun _ => none⟩

/-- Environment in which the caption service is unreachable. -/
def envCapFail : Env :=
  ⟨true, true, false, fun _ => true, "", fun _ => none⟩

/-- Environment in which the local metadata write fails. -/
def envDumpFail : Env :=
  ⟨true, false, true, fun _ => true, "", fun _ => none⟩

/-- Environment in which publishing the blob `cat.json` fails. -/
def envPutJsonFail : Env :=
  ⟨true, true, true, fun k => k != "cat.json", "", fun _ => none⟩

/-- Empty initial world. -/
def w0 : World := ⟨[], []⟩

/-- Initial world holding one unrelated object. -/
def wOther : World := ⟨[("other.txt", Blob.bytes "o")], []⟩

/-- World holding one published image with its caption record. -/
def wCat : World :=
  ⟨[("cat.jpg", Blob.bytes "B"),
    ("cat.json",
     Blob.jsonDoc (JsonVal.jobj [("title", "Cat"), ("description", "A cat.")]))],
   []⟩

/-! Basic facts about the key-addressed-map operations. -/

theorem lookup_filter_out (m : List (String × Blob)) (k k' : String)
    (h : k' ≠ k) :
    List.lookup k' (m.filter (fun p => p.1 != k)) = List.lookup k' m := by
  induction m with
  | nil => rfl
  | cons hd tl ih =>
    obtain ⟨a, b⟩ := hd
    by_cases ha : a = k
    · subst ha
      have hba : (k' == a) = false := by simp [h]
      simp [List.filter_cons, List.lookup, hba, ih]
    · have hne : (a != k) = true := by simp [ha]
      simp [List.filter_cons, List.lookup, hne, ih]

theorem lookup_mapPut_self (m : List (String × Blob)) (k : String) (v : Blob) :
    List.lookup k (mapPut m k v) = some v := by
  simp [mapPut, List.lookup]

theorem lookup_mapPut_ne (m : List (String × Blob)) (k k' : String) (v : Blob)
    (h : k' ≠ k) : List.lookup k' (mapPut m k v) = List.lookup k' m := by
  have hba : (k' == k) = false := by simp [h]
  simp [mapPut, List.lookup, hba, lookup_filter_out m k k' h]

theorem lookup_mapDel_self (m : List (String × Blob)) (k : String) :
    List.lookup k (mapDel m k) = none := by
  induction m with
  | nil => rfl
  | cons hd tl ih =>
    obtain ⟨a, b⟩ := hd
    by_cases ha : a = k
    · subst ha
      simpa [mapDel, List.filter_cons] using ih
    · have hne : (a != k) = true := by simp [ha]
      have hba : (k == a) = false := by simp [Ne.symm ha]
      simpa [mapDel, List.filter_cons, hne, List.lookup, hba] using ih

theorem lookup_mapDel_ne (m : List (String × Blob)) (k k' : String)
    (h : k' ≠ k) : List.lookup k' (mapDel m k) = List.lookup k' m :=
  lookup_filter_out m k k' h

theorem filter_and_self_nil (m : List (String × Blob)) (k : String) :
    m.filter (fun p => (p.1 == k) && (p.1 != k)) = [] := by
  induction m with
  | nil => rfl
  | cons hd tl ih =>
    by_cases hp : hd.1 = k <;> simp [List.filter_cons, hp, ih]

theorem filter_and_out (m : List (String × Blob)) (k k' : String)
    (h : k' ≠ k) :
    m.filter (fun p => (p.1 == k') && (p.1 != k)) =
      m.filter (fun p => p.1 == k') := by
  apply List.filter_congr
  intro p _
  by_cases hp : p.1 = k' <;> simp [hp, h]

theorem keyCount_mapPut_self (m : List (String × Blob)) (k : String)
    (v : Blob) : keyCount (mapPut m k v) k = 1 := by
  simp [keyCount, mapPut, List.filter_cons, List.filter_filter,
    filter_and_self_nil]

theorem keyCount_mapPut_ne (m : List (String × Blob)) (k k' : String)
    (v : Blob) (h : k' ≠ k) : keyCount (mapPut m k v) k' = keyCount m k' := by
  have hba : (k == k') = false := by simp [Ne.symm h]
  simp [keyCount, mapPut, List.filter_cons, hba, List.filter_filter,
    filter_and_out m k k' h]

/-! Facts about the Python `str.replace` model. -/

theorem string_mk_data (l : List Char) : (String.mk l).data = l := rfl

theorem replaceAllF_congr (old new : List Char) :
    ∀ (f1 f2 : Nat) (l : List Char), l.length ≤ f1 → l.length ≤ f2 →
      replaceAllF old new f1 l = replaceAllF old new f2 l := by
  intro f1
  induction f1 with
  | zero =>
    intro f2 l h1 h2
    have hl : l = [] := List.eq_nil_of_length_eq_zero (Nat.le_zero.mp h1)
    subst hl
    cases f2 <;> rfl
  | succ n ih =>
    intro f2 l h1 h2
    cases l with
    | nil => cases f2 <;> rfl
    | cons c rest =>
      cases f2 with
      | zero => simp at h2
      | succ m =>
        simp only [replaceAllF]
        have hlen := List.length_drop (old.length - 1) rest
        by_cases hg : old ≠ [] ∧ old <+: (c :: rest)
        · rw [if_pos hg, if_pos hg]
          congr 1
          apply ih
          · simp at h1; omega
          · simp at h2; omega
        · rw [if_neg hg, if_neg hg]
          congr 1
          apply ih
          · simp at h1; omega
          · simp at h2; omega

theorem replaceAll_cons_pos (old new : List Char) (c : Char) (rest : List Char)
    (hne : old ≠ []) (hpre : old <+: (c :: rest)) :
    replaceAll old new (c :: rest) =
      new ++ replaceAll old new (List.drop (old.length - 1) rest) := by
  unfold replaceAll
  simp only [List.length_cons, replaceAllF, if_pos (And.intro hne hpre)]
  congr 1
  apply replaceAllF_congr
  · have := List.length_drop (old.length - 1) rest; omega
  · exact Nat.le_refl _

theorem replaceAll_cons_neg (old new : List Char) (c : Char) (rest : List Char)
    (hg : ¬ (old ≠ [] ∧ old <+: (c :: rest))) :
    replaceAll old new (c :: rest) = c :: replaceAll old new rest := by
  unfold replaceAll
  simp only [List.length_cons, replaceAllF, if_neg hg]

theorem replaceAll_of_no_occ (old new : List Char) :
    ∀ l : List Char, (∀ s2, s2 <:+ l → s2 ≠ [] → ¬ old <+: s2) →
      replaceAll old new l = l := by
  intro l
  induction l with
  | nil => intro _; rfl
  | cons c rest ih =>
    intro h
    have hg : ¬ (old ≠ [] ∧ old <+: (c :: rest)) := by
      rintro ⟨hne, hpre⟩
      exact h (c :: rest) (List.suffix_refl _) (by simp) hpre
    rw [replaceAll_cons_neg _ _ _ _ hg,
      ih (fun s2 hs2 hne2 => h s2 (hs2.trans (List.suffix_cons c rest)) hne2)]

theorem replaceAll_append_clean (old new : List Char) :
    ∀ (s t : List Char), (∀ s2, s2 <:+ s → s2 ≠ [] → ¬ old <+: (s2 ++ t)) →
      replaceAll old new (s ++ t) = s ++ replaceAll old new t := by
  intro s
  induction s with
  | nil => intro t _; rfl
  | cons c s' ih =>
    intro t h
    have hg : ¬ (old ≠ [] ∧ old <+: (c :: (s' ++ t))) := by
      rintro ⟨hne, hpre⟩
      exact h (c :: s') (List.suffix_refl _) (by simp) hpre
    rw [show (c :: s') ++ t = c :: (s' ++ t) from rfl,
      replaceAll_cons_neg _ _ _ _ hg,
      ih t (fun s2 hs2 hne2 => h s2 (hs2.trans (List.suffix_cons c s')) hne2)]
    rfl

theorem replaceAll_head_match (old new t : List Char) (hne : old ≠ []) :
    replaceAll old new (old ++ t) = new ++ replaceAll old new t := by
  cases old with
  | nil => exact absurd rfl hne
  | cons o old' =>
    have hpre : (o :: old') <+: (o :: (old' ++ t)) := ⟨t, by simp⟩
    rw [show (o :: old') ++ t = o :: (old' ++ t) from rfl,
      replaceAll_cons_pos _ _ _ _ hne hpre]
    have hdrop : List.drop ((o :: old').length - 1) (old' ++ t) = t := by
      simp only [List.length_cons, Nat.succ_sub_one]
      exact List.drop_left old' t
    rw [hdrop]

theorem replaceAll_pattern_self (old new : List Char) (hne : old ≠ []) :
    replaceAll old new old = new := by
  have h := replaceAll_head_match old new [] hne
  rw [show replaceAll old new ([] : List Char) = [] from rfl] at h
  simpa using h

theorem no_occ_of_not_contains (old l : List Char) (h : ¬ old <:+: l) :
    ∀ s2, s2 <:+ l → ¬ old <+: s2 := by
  intro s2 hs2 hpre
  obtain ⟨u, hu⟩ := hpre
  obtain ⟨p, hp⟩ := hs2
  exact h ⟨p, u, by rw [← hp, ← hu]; simp⟩

theorem replaceAll_append_no_dot (old new s t : List Char)
    (hd : old.head? = some '.') (hs : ∀ c ∈ s, c ≠ '.') :
    replaceAll old new (s ++ t) = s ++ replaceAll old new t := by
  apply replaceAll_append_clean
  intro s2 hs2 hne2 hpre
  cases s2 with
  | nil => exact hne2 rfl
  | cons c r =>
    cases old with
    | nil => simp at hd
    | cons o o' =>
      have ho : o = '.' := by simpa using hd
      have hc : c ∈ s := hs2.subset (List.mem_cons_self c r)
      obtain ⟨u, hu⟩ := hpre
      have hoc : o = c := by
        have := congrArg (fun l => l.head?) hu
        simpa using this
      exact hs c hc (by rw [← hoc, ho])

/-! Facts about the derived metadata name. -/

theorem mk_data_eq (s : String) : String.mk s.data = s := by
  cases s
  rfl

theorem data_append2 (s t : String) : (s ++ t).data = s.data ++ t.data := by
  cases s
  cases t
  rfl

theorem string_append_mk (s : String) (l : List Char) :
    s ++ String.mk l = String.mk (s.data ++ l) := by
  cases s
  rfl

theorem localPath_eq (f : String) : localPath f = "files/" ++ f := rfl

theorem pyReplace_localPath (f old new : String)
    (hd : old.data.head? = some '.') :
    pyReplace (localPath f) old new = localPath (pyReplace f old new) := by
  have hs : ∀ c ∈ "files/".data, c ≠ '.' := by decide
  rw [localPath_eq, localPath_eq]
  unfold pyReplace
  rw [data_append2, replaceAll_append_no_dot old.data new.data _ _ hd hs,
    string_append_mk]

theorem deriveJsonName_localPath (f : String) :
    deriveJsonName (localPath f) = localPath (deriveJsonName f) := by
  unfold deriveJsonName
  rw [pyReplace_localPath f ".jpeg" ".json" (by decide),
    pyReplace_localPath _ ".jpg" ".json" (by decide)]

theorem deriveJsonName_eq_self (f : String)
    (h1 : ¬ (".jpeg".data <:+: f.data)) (h2 : ¬ (".jpg".data <:+: f.data)) :
    deriveJsonName f = f := by
  unfold deriveJsonName pyReplace
  simp only [string_mk_data]
  rw [replaceAll_of_no_occ _ _ _
      (fun s2 hs2 _ => no_occ_of_not_contains _ _ h1 s2 hs2),
    replaceAll_of_no_occ _ _ _
      (fun s2 hs2 _ => no_occ_of_not_contains _ _ h2 s2 hs2),
    mk_data_eq]

theorem deriveJsonName_stem_ext_jpg (stem : String)
    (h1 : ¬ (".jpeg".data <:+: (stem ++ ".jpg").data))
    (h2 : ∀ s2, s2 <:+ stem.data → s2 ≠ [] →
      ¬ (".jpg".data <+: (s2 ++ ".jpg".data))) :
    deriveJsonName (stem ++ ".jpg") = stem ++ ".json" := by
  unfold deriveJsonName pyReplace
  simp only [string_mk_data]
  rw [replaceAll_of_no_occ _ _ _
      (fun s2 hs2 _ => no_occ_of_not_contains _ _ h1 s2 hs2),
    data_append2,
    replaceAll_append_clean ".jpg".data ".json".data stem.data ".jpg".data h2,
    replaceAll_pattern_self _ _ (by decide)]
  rw [← data_append2, mk_data_eq]

theorem deriveJsonName_stem_ext_jpeg (stem : String)
    (h1 : ∀ s2, s2 <:+ stem.data → s2 ≠ [] →
      ¬ (".jpeg".data <+: (s2 ++ ".jpeg".data)))
    (h2 : ¬ (".jpg".data <:+: (stem ++ ".json").data)) :
    deriveJsonName (stem ++ ".jpeg") = stem ++ ".json" := by
  unfold deriveJsonName pyReplace
  simp only [string_mk_data]
  rw [data_append2,
    replaceAll_append_clean ".jpeg".data ".json".data stem.data ".jpeg".data h1,
    replaceAll_pattern_self _ _ (by decide),
    ← data_append2,
    replaceAll_of_no_occ _ _ _
      (fun s2 hs2 _ => no_occ_of_not_contains _ _ h2 s2 hs2),
    mk_data_eq]

theorem localPath_inj {a b : String} (h : localPath a = localPath b) :
    a = b := by
  have hdata := congrArg String.data h
  rw [localPath_eq, localPath_eq, data_append2, data_append2] at hdata
  have h3 : a.data = b.data := List.append_cancel_left hdata
  calc a = String.mk a.data := (mk_data_eq a).symm
    _ = String.mk b.data := by rw [h3]
    _ = b := mk_data_eq b

/-! Symbolic execution of the upload pipeline, one lemma per outcome. -/

theorem upload_eval_save_fail (env : Env) (fn c : String) (w : World)
    (hsave : env.saveOk = false) :
    upload env fn c w = (w, .jsonError (errMsg .ioError) 500) := by
  simp [upload, uploadBody, stepBind, fileSave, hsave]

theorem upload_eval_put1_fail (env : Env) (fn c : String) (w : World)
    (hsave : env.saveOk = true) (hput1 : env.gcsPutOk fn = false) :
    upload env fn c w =
      ({w with localFs := mapPut w.localFs (localPath fn) (Blob.bytes c)},
       .jsonError (errMsg .gcsError) 500) := by
  simp [upload, uploadBody, stepBind, fileSave, upload_to_gcs, hsave, hput1,
    lookup_mapPut_self]

theorem upload_eval_caption_fail (env : Env) (fn c : String) (w : World)
    (e : PyErr) (hsave : env.saveOk = true) (hput1 : env.gcsPutOk fn = true)
    (hcap : captionResult env = .error e) :
    upload env fn c w =
      ({ w with
          gcs := mapPut w.gcs fn (Blob.bytes c)
          localFs := mapPut w.localFs (localPath fn) (Blob.bytes c) },
       .jsonError (errMsg e) 500) := by
  simp [upload, uploadBody, stepBind, fileSave, upload_to_gcs,
    generate_image_caption, hsave, hput1, hcap, lookup_mapPut_self]

theorem upload_eval_dump_fail (env : Env) (fn c : String) (w : World)
    (m : JsonVal) (hsave : env.saveOk = true) (hput1 : env.gcsPutOk fn = true)
    (hcap : captionResult env = .ok m) (hjw : env.jsonWriteOk = false) :
    upload env fn c w =
      ({ w with
          gcs := mapPut w.gcs fn (Blob.bytes c)
          localFs := mapPut w.localFs (localPath fn) (Blob.bytes c) },
       .jsonError (errMsg .ioError) 500) := by
  simp [upload, uploadBody, stepBind, fileSave, upload_to_gcs,
    generate_image_caption, jsonDump, hsave, hput1, hcap, hjw,
    lookup_mapPut_self]

theorem upload_eval_put2_fail (env : Env) (fn c : String) (w : World)
    (m : JsonVal) (hsave : env.saveOk = true) (hput1 : env.gcsPutOk fn = true)
    (hcap : captionResult env = .ok m) (hjw : env.jsonWriteOk = true)
    (hput2 : env.gcsPutOk (deriveJsonName fn) = false) :
    upload env fn c w =
      ({ w with
          gcs := mapPut w.gcs fn (Blob.bytes c)
          localFs := mapPut
            (mapPut w.localFs (localPath fn) (Blob.bytes c))
            (localPath (deriveJsonName fn)) (Blob.jsonDoc m) },
       .jsonError (errMsg .gcsError) 500) := by
  simp [upload, uploadBody, stepBind, fileSave, upload_to_gcs,
    generate_image_caption, jsonDump, hsave, hput1, hcap, hjw, hput2,
    lookup_mapPut_self, deriveJsonName_localPath]

theorem upload_eval_cleanup_fail (env : Env) (fn c : String) (w : World)
    (m : JsonVal) (hsave : env.saveOk = true) (hput1 : env.gcsPutOk fn = true)
    (hcap : captionResult env = .ok m) (hjw : env.jsonWriteOk = true)
    (_hput2 : env.gcsPutOk (deriveJsonName fn) = true)
    (hne : deriveJsonName fn = fn) :
    upload env fn c w =
      ({ w with
          gcs := mapPut (mapPut w.gcs fn (Blob.bytes c)) fn (Blob.jsonDoc m)
          localFs := mapDel
            (mapPut (mapPut w.localFs (localPath fn) (Blob.bytes c))
              (localPath fn) (Blob.jsonDoc m)) (localPath fn) },
       .jsonError (errMsg .fileNotFound) 500) := by
  simp [upload, uploadBody, stepBind, fileSave, upload_to_gcs,
    generate_image_caption, jsonDump, osRemove, hsave, hput1, hcap, hjw,
    hne, lookup_mapPut_self, lookup_mapDel_self,
    deriveJsonName_localPath]

theorem upload_eval_success (env : Env) (fn c : String) (w : World)
    (m : JsonVal) (hsave : env.saveOk = true) (hput1 : env.gcsPutOk fn = true)
    (hcap : captionResult env = .ok m) (hjw : env.jsonWriteOk = true)
    (hput2 : env.gcsPutOk (deriveJsonName fn) = true)
    (hne : deriveJsonName fn ≠ fn) :
    upload env fn c w =
      ({ w with
          gcs := mapPut (mapPut w.gcs fn (Blob.bytes c))
            (deriveJsonName fn) (Blob.jsonDoc m)
          localFs := mapDel (mapDel
            (mapPut (mapPut w.localFs (localPath fn) (Blob.bytes c))
              (localPath (deriveJsonName fn)) (Blob.jsonDoc m))
            (localPath fn)) (localPath (deriveJsonName fn)) },
       .redirect ("/files/" ++ fn)) := by
  have hlp : localPath fn ≠ localPath (deriveJsonName fn) :=
    fun hq => hne (localPath_inj hq).symm
  simp [upload, uploadBody, stepBind, fileSave, upload_to_gcs,
    generate_image_caption, jsonDump, osRemove, hsave, hput1, hcap, hjw,
    hput2, lookup_mapPut_self, lookup_mapDel_self, lookup_mapPut_ne,
    lookup_mapDel_ne, deriveJsonName_localPath, hlp, Ne.symm hlp]

theorem upload_success_inv (env : Env) (fn c : String) (w : World)
    (h : isRedirect (upload env fn c w).2 = true) :
    env.saveOk = true ∧ env.gcsPutOk fn = true ∧
      (∃ m, captionResult env = .ok m) ∧ env.jsonWriteOk = true ∧
      env.gcsPutOk (deriveJsonName fn) = true ∧ deriveJsonName fn ≠ fn := by
  cases hsave : env.saveOk with
  | false =>
    rw [upload_eval_save_fail env fn c w hsave] at h
    simp [isRedirect] at h
  | true =>
    cases hput1 : env.gcsPutOk fn with
    | false =>
      rw [upload_eval_put1_fail env fn c w hsave hput1] at h
      simp [isRedirect] at h
    | true =>
      cases hcap : captionResult env with
      | error e =>
        rw [upload_eval_caption_fail env fn c w e hsave hput1 hcap] at h
        simp [isRedirect] at h
      | ok m =>
        cases hjw : env.jsonWriteOk with
        | false =>
          rw [upload_eval_dump_fail env fn c w m hsave hput1 hcap hjw] at h
          simp [isRedirect] at h
        | true =>
          cases hput2 : env.gcsPutOk (deriveJsonName fn) with
          | false =>
            rw [upload_eval_put2_fail env fn c w m hsave hput1 hcap hjw
              hput2] at h
            simp [isRedirect] at h
          | true =>
            by_cases hne : deriveJsonName fn = fn
            · rw [upload_eval_cleanup_fail env fn c w m hsave hput1 hcap hjw
                hput2 hne] at h
              simp [isRedirect] at h
            · exact ⟨rfl, rfl, ⟨m, rfl⟩, rfl, rfl, hne⟩

/-! Symbolic execution of the retrieval handler. -/

theorem get_file_image_missing (fn : String) (w : World)
    (h : List.lookup fn w.gcs = none) :
    get_file fn w = (w, .errorPage (errMsg .gcsNotFound)) := by
  simp [get_file, download_from_gcs, h]

theorem get_file_json_missing (fn : String) (w : World) (b : Blob)
    (h1 : List.lookup fn w.gcs = some b)
    (h2 : List.lookup (deriveJsonName fn) w.gcs = none) :
    get_file fn w =
      ({w with localFs := mapPut w.localFs (localPath fn) b},
       .errorPage (errMsg .gcsNotFound)) := by
  simp [get_file, download_from_gcs, h1, h2]

theorem get_file_json_not_doc (fn : String) (w : World) (b : Blob)
    (s : String) (h1 : List.lookup fn w.gcs = some b)
    (h2 : List.lookup (deriveJsonName fn) w.gcs = some (Blob.bytes s)) :
    get_file fn w =
      ({ w with
          localFs := mapPut (mapPut w.localFs (localPath fn) b)
            (localPath (deriveJsonName fn)) (Blob.bytes s) },
       .errorPage (errMsg .jsonDecodeError)) := by
  simp [get_file, download_from_gcs, jsonLoadFile, h1, h2, lookup_mapPut_self]

theorem get_file_doc (fn : String) (w : World) (b : Blob) (m : JsonVal)
    (h1 : List.lookup fn w.gcs = some b)
    (h2 : List.lookup (deriveJsonName fn) w.gcs = some (Blob.jsonDoc m)) :
    get_file fn w =
      ({ w with
          localFs := mapPut (mapPut w.localFs (localPath fn) b)
            (localPath (deriveJsonName fn)) (Blob.jsonDoc m) },
       match getField m "title" with
       | none => .errorPage (errMsg .keyError)
       | some title =>
         match getField m "description" with
         | none => .errorPage (errMsg .keyError)
         | some description => .page title fn description) := by
  simp only [get_file, download_from_gcs, jsonLoadFile, h1, h2,
    lookup_mapPut_self]
  cases getField m "title" with
  | none => rfl
  | some t => cases getField m "description" <;> rfl

theorem get_file_err_char (fn : String) (w : World) :
    isErrorOutcome (get_file fn w).2 = specRetrievalFails fn w := by
  cases h1 : List.lookup fn w.gcs with
  | none =>
    rw [get_file_image_missing fn w h1]
    simp [isErrorOutcome, specRetrievalFails, h1]
  | some b =>
    cases h2 : List.lookup (deriveJsonName fn) w.gcs with
    | none =>
      rw [get_file_json_missing fn w b h1 h2]
      simp [isErrorOutcome, specRetrievalFails, h1, h2]
    | some b2 =>
      cases b2 with
      | bytes s =>
        rw [get_file_json_not_doc fn w b s h1 h2]
        simp [isErrorOutcome, specRetrievalFails, h1, h2]
      | jsonDoc m =>
        rw [get_file_doc fn w b m h1 h2]
        simp only [specRetrievalFails, h1, h2]
        cases ht : getField m "title" with
        | none => simp [isErrorOutcome, ht]
        | some t =>
          cases hd : getField m "description" with
          | none => simp [isErrorOutcome, ht, hd]
          | some d => simp [isErrorOutcome, ht, hd]

theorem get_file_gcs_unchanged (fn : String) (w : World) :
    (get_file fn w).1.gcs = w.gcs := by
  cases h1 : List.lookup fn w.gcs with
  | none => rw [get_file_image_missing fn w h1]
  | some b =>
    cases h2 : List.lookup (deriveJsonName fn) w.gcs with
    | none => rw [get_file_json_missing fn w b h1 h2]
    | some b2 =>
      cases b2 with
      | bytes s => rw [get_file_json_not_doc fn w b s h1 h2]
      | jsonDoc m => rw [get_file_doc fn w b m h1 h2]

theorem get_file_outcome_eq_of_gcs (fn : String) (w w' : World)
    (h : w.gcs = w'.gcs) : (get_file fn w).2 = (get_file fn w').2 := by
  cases h1 : List.lookup fn w.gcs with
  | none =>
    rw [get_file_image_missing fn w h1,
      get_file_image_missing fn w' (h ▸ h1)]
  | some b =>
    cases h2 : List.lookup (deriveJsonName fn) w.gcs with
    | none =>
      rw [get_file_json_missing fn w b h1 h2,
        get_file_json_missing fn w' b (h ▸ h1) (h ▸ h2)]
    | some b2 =>
      cases b2 with
      | bytes s =>
        rw [get_file_json_not_doc fn w b s h1 h2,
          get_file_json_not_doc fn w' b s (h ▸ h1) (h ▸ h2)]
      | jsonDoc m =>
        rw [get_file_doc fn w b m h1 h2,
          get_file_doc fn w' b m (h ▸ h1) (h ▸ h2)]

/-! Claim theorems. -/

/-- C1: for every valid image upload that completes successfully (the
`/upload` handler returns a redirect), the handler redirects to
`/files/{filename}`, the object store holds exactly one image object under
the uploaded filename carrying the uploaded bytes and exactly one metadata
object under the derived key, and no other key of the store changed. -/
theorem claim_C1_upload_success_postcondition (env : Env) (fn c : String)
    (w : World) (h : isRedirect (upload env fn c w).2 = true) :
    (upload env fn c w).2 = .redirect ("/files/" ++ fn) ∧
    List.lookup fn (upload env fn c w).1.gcs = some (Blob.bytes c) ∧
    keyCount (upload env fn c w).1.gcs fn = 1 ∧
    (∃ m : JsonVal,
      List.lookup (deriveJsonName fn) (upload env fn c w).1.gcs =
        some (Blob.jsonDoc m)) ∧
    keyCount (upload env fn c w).1.gcs (deriveJsonName fn) = 1 ∧
    (∀ k : String, k ≠ fn → k ≠ deriveJsonName fn →
      List.lookup k (upload env fn c w).1.gcs = List.lookup k w.gcs) := by
  obtain ⟨hsave, hput1, ⟨m, hcap⟩, hjw, hput2, hne⟩ :=
    upload_success_inv env fn c w h
  rw [upload_eval_success env fn c w m hsave hput1 hcap hjw hput2 hne]
  refine ⟨rfl, ?_, ?_, ⟨m, ?_⟩, ?_, ?_⟩
  · show List.lookup fn
      (mapPut (mapPut w.gcs fn (Blob.bytes c)) (deriveJsonName fn)
        (Blob.jsonDoc m)) = some (Blob.bytes c)
    rw [lookup_mapPut_ne _ _ _ _ (Ne.symm hne), lookup_mapPut_self]
  · show keyCount
      (mapPut (mapPut w.gcs fn (Blob.bytes c)) (deriveJsonName fn)
        (Blob.jsonDoc m)) fn = 1
    rw [keyCount_mapPut_ne _ _ _ _ (Ne.symm hne), keyCount_mapPut_self]
  · exact lookup_mapPut_self _ _ _
  · exact keyCount_mapPut_self _ _ _
  · intro k hk1 hk2
    show List.lookup k
      (mapPut (mapPut w.gcs fn (Blob.bytes c)) (deriveJsonName fn)
        (Blob.jsonDoc m)) = List.lookup k w.gcs
    rw [lookup_mapPut_ne _ _ _ _ hk2, lookup_mapPut_ne _ _ _ _ hk1]

/-- C1 witness: a successful upload of `cat.jpg` over a store holding one
unrelated object redirects to its detail page, stores the bytes under
`cat.jpg`, keeps exactly one metadata object under the derived key, and
leaves the unrelated object untouched. -/
theorem claim_C1_witness :
    (upload envAllOk "cat.jpg" "B" wOther).2 = .redirect "/files/cat.jpg" ∧
    List.lookup "cat.jpg" (upload envAllOk "cat.jpg" "B" wOther).1.gcs =
      some (Blob.bytes "B") ∧
    keyCount (upload envAllOk "cat.jpg" "B" wOther).1.gcs
      (deriveJsonName "cat.jpg") = 1 ∧
    List.lookup "other.txt" (upload envAllOk "cat.jpg" "B" wOther).1.gcs =
      List.lookup "other.txt" wOther.gcs := by
  have h := claim_C1_upload_success_postcondition envAllOk "cat.jpg" "B"
    wOther (by decide)
  exact ⟨h.1, h.2.1, h.2.2.2.2.1,
    h.2.2.2.2.2 "other.txt" (by decide) (by decide)⟩

/-- C2 counterexample: the code derives the metadata key with Python
`str.replace`, which replaces every occurrence, so for the uploaded
filename `x.jpg.jpg` the derived key is `x.json.json`, not the
trailing-extension swap `x.jpg.json` that the claim promises. -/
theorem claim_C2_counterexample :
    deriveJsonName "x.jpg.jpg" = "x.json.json" ∧
    deriveJsonName "x.jpg.jpg" ≠ "x.jpg.json" := by
  constructor
  · rfl
  · decide

/-- C2 (amended): the derived key replaces every occurrence of `.jpeg`
and then every occurrence of `.jpg` with `.json`; for a filename
`stem + ".jpg"` (resp. `stem + ".jpeg"`) in which the image extension
occurs nowhere except as the trailing extension, this coincides with the
claim's extension swap: the derived key is `stem + ".json"` with the stem
unchanged (e.g. `photo.jpg` derives `photo.json`). -/
theorem claim_C2_amended_extension_swap (stem : String) :
    ((¬ (".jpeg".data <:+: (stem ++ ".jpg").data)) →
      (∀ s2 ∈ stem.data.tails,
        s2 = [] ∨ ¬ (".jpg".data <+: (s2 ++ ".jpg".data))) →
      deriveJsonName (stem ++ ".jpg") = stem ++ ".json") ∧
    ((∀ s2 ∈ stem.data.tails,
        s2 = [] ∨ ¬ (".jpeg".data <+: (s2 ++ ".jpeg".data))) →
      (¬ (".jpg".data <:+: (stem ++ ".json").data)) →
      deriveJsonName (stem ++ ".jpeg") = stem ++ ".json") := by
  constructor
  · intro h1 h2
    exact deriveJsonName_stem_ext_jpg stem h1
      (fun s2 hs2 hne =>
        (h2 s2 ((List.mem_tails _ _).mpr hs2)).resolve_left hne)
  · intro h1 h2
    exact deriveJsonName_stem_ext_jpeg stem
      (fun s2 hs2 hne =>
        (h1 s2 ((List.mem_tails _ _).mpr hs2)).resolve_left hne) h2

/-- C2 witness: for the stem `photo`, both `photo.jpg` and `photo.jpeg`
derive `photo.json`. -/
theorem claim_C2_witness :
    deriveJsonName ("photo" ++ ".jpg") = "photo" ++ ".json" ∧
    deriveJsonName ("photo" ++ ".jpeg") = "photo" ++ ".json" :=
  ⟨(claim_C2_amended_extension_swap "photo").1 (by decide) (by decide),
   (claim_C2_amended_extension_swap "photo").2 (by decide) (by decide)⟩

theorem captionResult_empty (env : Env) (hg : env.geminiOk = true)
    (hstrip : pyStrip env.captionText = "") :
    captionResult env = .ok defaultMetadata := by
  simp [captionResult, hg, hstrip]

theorem captionResult_invalid (env : Env) (hg : env.geminiOk = true)
    (hne : pyStrip env.captionText ≠ "")
    (hl : env.jloads (pyStrip env.captionText) = none) :
    captionResult env = .error .jsonDecodeError := by
  simp [captionResult, hg, hne, hl]

/-- C3: when the caption service returns an empty (whitespace-only)
response, `generate_image_caption` yields the default record and a
successful pipeline run persists exactly that default under the derived
key; when the service returns a non-empty response that `json.loads`
rejects, the run fails with a 500 JSON error and publishes no metadata
object (only the image key changed). -/
theorem claim_C3_caption_empty_default (env : Env) (fn c : String)
    (w : World) :
    (∀ (path : String) (wx : World) (b : Blob),
      List.lookup path wx.localFs = some b → env.geminiOk = true →
      pyStrip env.captionText = "" →
      (generate_image_caption env path wx).2 = .ok defaultMetadata) ∧
    (pyStrip env.captionText = "" →
      isRedirect (upload env fn c w).2 = true →
      List.lookup (deriveJsonName fn) (upload env fn c w).1.gcs =
        some (Blob.jsonDoc defaultMetadata)) ∧
    (env.saveOk = true → env.gcsPutOk fn = true → env.geminiOk = true →
      pyStrip env.captionText ≠ "" →
      env.jloads (pyStrip env.captionText) = none →
      (upload env fn c w).2 = .jsonError (errMsg .jsonDecodeError) 500 ∧
      (∀ k, k ≠ fn →
        List.lookup k (upload env fn c w).1.gcs = List.lookup k w.gcs)) := by
  refine ⟨?_, ?_, ?_⟩
  · intro path wx b hl hg hstrip
    simp [generate_image_caption, hl, captionResult_empty env hg hstrip]
  · intro hstrip h
    obtain ⟨hsave, hput1, ⟨m, hcap⟩, hjw, hput2, hne⟩ :=
      upload_success_inv env fn c w h
    have hg : env.geminiOk = true := by
      cases hg2 : env.geminiOk
      · simp [captionResult, hg2] at hcap
      · rfl
    have hdm : m = defaultMetadata := by
      have h2 := captionResult_empty env hg hstrip
      rw [hcap] at h2
      simpa using h2
    subst hdm
    rw [upload_eval_success env fn c w _ hsave hput1 hcap hjw hput2 hne]
    exact lookup_mapPut_self _ _ _
  · intro hsave hput1 hg hneS hl
    have hcap := captionResult_invalid env hg hneS hl
    rw [upload_eval_caption_fail env fn c w .jsonDecodeError hsave hput1 hcap]
    refine ⟨rfl, ?_⟩
    intro k hk
    exact lookup_mapPut_ne _ _ _ _ hk

/-- C3 witness: with an empty caption response, the caption step yields
the default record and uploading `cat.jpg` persists it under `cat.json`;
with the non-empty unparseable response of `envBadJson`, the same upload
fails with the JSON-decode 500 error. -/
theorem claim_C3_witness :
    (generate_image_caption envAllOk "p"
      ⟨[], [("p", Blob.bytes "B")]⟩).2 = .ok defaultMetadata ∧
    List.lookup (deriveJsonName "cat.jpg")
      (upload envAllOk "cat.jpg" "B" w0).1.gcs =
      some (Blob.jsonDoc defaultMetadata) ∧
    (upload envBadJson "cat.jpg" "B" w0).2 =
      .jsonError (errMsg .jsonDecodeError) 500 := by
  have hA := claim_C3_caption_empty_default envAllOk "cat.jpg" "B" w0
  have hB := claim_C3_caption_empty_default envBadJson "cat.jpg" "B" w0
  exact ⟨hA.1 "p" ⟨[], [("p", Blob.bytes "B")]⟩ (Blob.bytes "B") (by decide)
      (by decide) (by decide),
    hA.2.1 (by decide) (by decide),
    (hB.2.2 (by decide) (by decide) (by decide) (by decide) (by decide)).1⟩

theorem captionResult_valid (env : Env) (hg : env.geminiOk = true)
    (hne : pyStrip env.captionText ≠ "") (v : JsonVal)
    (hl : env.jloads (pyStrip env.captionText) = some v) :
    captionResult env = .ok v := by
  simp [captionResult, hg, hne, hl]

/-- C4: when the caption service returns a non-empty response parsing to
a two-field document, a successful upload persists exactly that document
under the derived key, and retrieving the same filename afterwards
composes the page from the very same title and description. -/
theorem claim_C4_roundtrip (env : Env) (fn c : String) (w : World)
    (T D : String) (hne0 : pyStrip env.captionText ≠ "")
    (hl : env.jloads (pyStrip env.captionText) =
      some (JsonVal.jobj [("title", T), ("description", D)]))
    (h : isRedirect (upload env fn c w).2 = true) :
    List.lookup (deriveJsonName fn) (upload env fn c w).1.gcs =
      some (Blob.jsonDoc (JsonVal.jobj [("title", T), ("description", D)])) ∧
    (get_file fn (upload env fn c w).1).2 = .page T fn D := by
  obtain ⟨hsave, hput1, ⟨m, hcap⟩, hjw, hput2, hnefn⟩ :=
    upload_success_inv env fn c w h
  have hg : env.geminiOk = true := by
    cases hg2 : env.geminiOk
    · simp [captionResult, hg2] at hcap
    · rfl
  have hm : m = JsonVal.jobj [("title", T), ("description", D)] := by
    have h2 := captionResult_valid env hg hne0 _ hl
    rw [hcap] at h2
    simpa using h2
  subst hm
  rw [upload_eval_success env fn c w _ hsave hput1 hcap hjw hput2 hnefn]
  have himg : List.lookup fn
      (mapPut (mapPut w.gcs fn (Blob.bytes c)) (deriveJsonName fn)
        (Blob.jsonDoc (JsonVal.jobj [("title", T), ("description", D)]))) =
      some (Blob.bytes c) := by
    rw [lookup_mapPut_ne _ _ _ _ (Ne.symm hnefn), lookup_mapPut_self]
  have hjson : List.lookup (deriveJsonName fn)
      (mapPut (mapPut w.gcs fn (Blob.bytes c)) (deriveJsonName fn)
        (Blob.jsonDoc (JsonVal.jobj [("title", T), ("description", D)]))) =
      some (Blob.jsonDoc (JsonVal.jobj [("title", T), ("description", D)])) :=
    lookup_mapPut_self _ _ _
  refine ⟨hjson, ?_⟩
  rw [get_file_doc fn _ (Blob.bytes c) _ himg hjson]
  have ht : getField (JsonVal.jobj [("title", T), ("description", D)])
      "title" = some T := rfl
  have hd : getField (JsonVal.jobj [("title", T), ("description", D)])
      "description" = some D := rfl
  simp only [ht, hd]

/-- C4 witness: uploading `cat.jpg` with caption response parsing to the
Cat document stores that document under `cat.json` verbatim and the
detail view then shows title `Cat` and description `A cat.`. -/
theorem claim_C4_witness :
    List.lookup (deriveJsonName "cat.jpg")
      (upload envCat "cat.jpg" "B" w0).1.gcs =
      some (Blob.jsonDoc
        (JsonVal.jobj [("title", "Cat"), ("description", "A cat.")])) ∧
    (get_file "cat.jpg" (upload envCat "cat.jpg" "B" w0).1).2 =
      .page "Cat" "cat.jpg" "A cat." :=
  claim_C4_roundtrip envCat "cat.jpg" "B" w0 "Cat" "A cat." (by decide)
    (by decide) (by decide)

/-- C5: whichever of the five pipeline steps raises first, the remaining
steps do not run — the world shows no effect beyond the steps already
executed — and the handler answers with the JSON error body carrying the
exception message and the server-error status 500; nothing is retried
(each failing run performs each executed step exactly once, as the
world equalities show). -/
theorem claim_C5_step_failure_aborts (env : Env) (fn c : String)
    (w : World) :
    (env.saveOk = false →
      upload env fn c w = (w, .jsonError (errMsg .ioError) 500)) ∧
    (env.saveOk = true → env.gcsPutOk fn = false →
      (upload env fn c w).2 = .jsonError (errMsg .gcsError) 500 ∧
      (upload env fn c w).1.gcs = w.gcs) ∧
    (∀ e, env.saveOk = true → env.gcsPutOk fn = true →
      captionResult env = .error e →
      (upload env fn c w).2 = .jsonError (errMsg e) 500 ∧
      (∀ k, k ≠ fn →
        List.lookup k (upload env fn c w).1.gcs = List.lookup k w.gcs)) ∧
    (∀ m, env.saveOk = true → env.gcsPutOk fn = true →
      captionResult env = .ok m → env.jsonWriteOk = false →
      (upload env fn c w).2 = .jsonError (errMsg .ioError) 500 ∧
      (∀ k, k ≠ fn →
        List.lookup k (upload env fn c w).1.gcs = List.lookup k w.gcs)) ∧
    (∀ m, env.saveOk = true → env.gcsPutOk fn = true →
      captionResult env = .ok m → env.jsonWriteOk = true →
      env.gcsPutOk (deriveJsonName fn) = false →
      (upload env fn c w).2 = .jsonError (errMsg .gcsError) 500 ∧
      (∀ k, k ≠ fn →
        List.lookup k (upload env fn c w).1.gcs = List.lookup k w.gcs)) := by
  refine ⟨?_, ?_, ?_, ?_, ?_⟩
  · intro hsave
    exact upload_eval_save_fail env fn c w hsave
  · intro hsave hput1
    rw [upload_eval_put1_fail env fn c w hsave hput1]
    exact ⟨rfl, rfl⟩
  · intro e hsave hput1 hcap
    rw [upload_eval_caption_fail env fn c w e hsave hput1 hcap]
    exact ⟨rfl, fun k hk => lookup_mapPut_ne _ _ _ _ hk⟩
  · intro m hsave hput1 hcap hjw
    rw [upload_eval_dump_fail env fn c w m hsave hput1 hcap hjw]
    exact ⟨rfl, fun k hk => lookup_mapPut_ne _ _ _ _ hk⟩
  · intro m hsave hput1 hcap hjw hput2
    rw [upload_eval_put2_fail env fn c w m hsave hput1 hcap hjw hput2]
    exact ⟨rfl, fun k hk => lookup_mapPut_ne _ _ _ _ hk⟩

/-- C5 witness: the five failure modes at concrete inputs — staging
failure, image-publish failure, caption-service failure, metadata-write
failure and metadata-publish failure — each answer with a 500 JSON error
and leave the object store without the effects of the skipped steps. -/
theorem claim_C5_witness :
    upload envSaveFail "cat.jpg" "B" w0 =
      (w0, .jsonError (errMsg .ioError) 500) ∧
    ((upload envPutImgFail "cat.jpg" "B" w0).2 =
        .jsonError (errMsg .gcsError) 500 ∧
      (upload envPutImgFail "cat.jpg" "B" w0).1.gcs = w0.gcs) ∧
    (upload envCapFail "cat.jpg" "B" w0).2 =
      .jsonError (errMsg .geminiError) 500 ∧
    (upload envDumpFail "cat.jpg" "B" w0).2 =
      .jsonError (errMsg .ioError) 500 ∧
    ((upload envPutJsonFail "cat.jpg" "B" w0).2 =
        .jsonError (errMsg .gcsError) 500 ∧
      List.lookup "cat.json" (upload envPutJsonFail "cat.jpg" "B" w0).1.gcs =
        List.lookup "cat.json" w0.gcs) := by
  have h5 := (claim_C5_step_failure_aborts envPutJsonFail "cat.jpg" "B"
    w0).2.2.2.2 defaultMetadata (by decide) (by decide) rfl (by decide)
    (by decide)
  refine ⟨?_, ?_, ?_, ?_, h5.1, h5.2 "cat.json" (by decide)⟩
  · exact (claim_C5_step_failure_aborts envSaveFail "cat.jpg" "B" w0).1
      (by decide)
  · exact (claim_C5_step_failure_aborts envPutImgFail "cat.jpg" "B" w0).2.1
      (by decide) (by decide)
  · exact ((claim_C5_step_failure_aborts envCapFail "cat.jpg" "B" w0).2.2.1
      .geminiError (by decide) (by decide) rfl).1
  · exact ((claim_C5_step_failure_aborts envDumpFail "cat.jpg" "B"
      w0).2.2.2.1 defaultMetadata (by decide) (by decide) rfl
      (by decide)).1
/-- C6 counterexample: uploading a filename without an image extension
(`noext`) over healthy collaborators is a failure path after staging (the
handler answers a 500 JSON error, not a redirect), yet the staging area
holds neither the staged image path nor the derived metadata path
afterwards — the staged files were cleaned up, contradicting the claim
that the staging area is cleared exactly when the run succeeds. -/
theorem claim_C6_counterexample :
    isRedirect (upload envAllOk "noext" "B" w0).2 = false ∧
    List.lookup (localPath "noext")
      (upload envAllOk "noext" "B" w0).1.localFs = none ∧
    List.lookup (localPath (deriveJsonName "noext"))
      (upload envAllOk "noext" "B" w0).1.localFs = none := by
  refine ⟨rfl, rfl, rfl⟩

/-- C6 (amended): on the success path both staged files are deleted; on
a failure in steps 2-5 (publish image, caption, persist metadata,
publish metadata) the staged files written so far remain in the staging
area; but a failure in the cleanup step itself — which happens exactly
when the derived metadata path coincides with the image path — also
leaves the staging area cleared of the run's files even though the run
fails. -/
theorem claim_C6_amended_cleanup (env : Env) (fn c : String) (w : World) :
    (isRedirect (upload env fn c w).2 = true →
      List.lookup (localPath fn) (upload env fn c w).1.localFs = none ∧
      List.lookup (localPath (deriveJsonName fn))
        (upload env fn c w).1.localFs = none) ∧
    (env.saveOk = true → env.gcsPutOk fn = false →
      List.lookup (localPath fn) (upload env fn c w).1.localFs =
        some (Blob.bytes c)) ∧
    (∀ e, env.saveOk = true → env.gcsPutOk fn = true →
      captionResult env = .error e →
      List.lookup (localPath fn) (upload env fn c w).1.localFs =
        some (Blob.bytes c)) ∧
    (∀ m, env.saveOk = true → env.gcsPutOk fn = true →
      captionResult env = .ok m → env.jsonWriteOk = false →
      List.lookup (localPath fn) (upload env fn c w).1.localFs =
        some (Blob.bytes c)) ∧
    (∀ m, env.saveOk = true → env.gcsPutOk fn = true →
      captionResult env = .ok m → env.jsonWriteOk = true →
      env.gcsPutOk (deriveJsonName fn) = false →
      List.lookup (localPath fn) (upload env fn c w).1.localFs =
        some (Blob.bytes c) ∧
      List.lookup (localPath (deriveJsonName fn))
        (upload env fn c w).1.localFs = some (Blob.jsonDoc m)) ∧
    (∀ m, env.saveOk = true → env.gcsPutOk fn = true →
      captionResult env = .ok m → env.jsonWriteOk = true →
      deriveJsonName fn = fn →
      isRedirect (upload env fn c w).2 = false ∧
      List.lookup (localPath fn) (upload env fn c w).1.localFs = none) := by
  refine ⟨?_, ?_, ?_, ?_, ?_, ?_⟩
  · intro h
    obtain ⟨hsave, hput1, ⟨m, hcap⟩, hjw, hput2, hne⟩ :=
      upload_success_inv env fn c w h
    have hlp : localPath fn ≠ localPath (deriveJsonName fn) :=
      fun hq => hne (localPath_inj hq).symm
    rw [upload_eval_success env fn c w m hsave hput1 hcap hjw hput2 hne]
    constructor
    · show List.lookup (localPath fn) (mapDel (mapDel
        (mapPut (mapPut w.localFs (localPath fn) (Blob.bytes c))
          (localPath (deriveJsonName fn)) (Blob.jsonDoc m))
        (localPath fn)) (localPath (deriveJsonName fn))) = none
      rw [lookup_mapDel_ne _ _ _ hlp, lookup_mapDel_self]
    · exact lookup_mapDel_self _ _
  · intro hsave hput1
    rw [upload_eval_put1_fail env fn c w hsave hput1]
    exact lookup_mapPut_self _ _ _
  · intro e hsave hput1 hcap
    rw [upload_eval_caption_fail env fn c w e hsave hput1 hcap]
    exact lookup_mapPut_self _ _ _
  · intro m hsave hput1 hcap hjw
    rw [upload_eval_dump_fail env fn c w m hsave hput1 hcap hjw]
    exact lookup_mapPut_self _ _ _
  · intro m hsave hput1 hcap hjw hput2
    have hne : deriveJsonName fn ≠ fn := by
      intro hq
      rw [hq, hput1] at hput2
      simp at hput2
    have hlp : localPath fn ≠ localPath (deriveJsonName fn) :=
      fun hq => hne (localPath_inj hq).symm
    rw [upload_eval_put2_fail env fn c w m hsave hput1 hcap hjw hput2]
    constructor
    · show List.lookup (localPath fn)
        (mapPut (mapPut w.localFs (localPath fn) (Blob.bytes c))
          (localPath (deriveJsonName fn)) (Blob.jsonDoc m)) =
        some (Blob.bytes c)
      rw [lookup_mapPut_ne _ _ _ _ hlp, lookup_mapPut_self]
    · exact lookup_mapPut_self _ _ _
  · intro m hsave hput1 hcap hjw hder
    have hput2 : env.gcsPutOk (deriveJsonName fn) = true := by
      rw [hder]; exact hput1
    rw [upload_eval_cleanup_fail env fn c w m hsave hput1 hcap hjw hput2
      hder]
    exact ⟨rfl, lookup_mapDel_self _ _⟩

/-- C6 witness: a successful upload of `cat.jpg` leaves neither staged
path behind, while the same upload with a failing image publish leaves
the staged image bytes in the staging area. -/
theorem claim_C6_witness :
    (List.lookup (localPath "cat.jpg")
        (upload envAllOk "cat.jpg" "B" w0).1.localFs = none ∧
      List.lookup (localPath (deriveJsonName "cat.jpg"))
        (upload envAllOk "cat.jpg" "B" w0).1.localFs = none) ∧
    List.lookup (localPath "cat.jpg")
      (upload envPutImgFail "cat.jpg" "B" w0).1.localFs =
      some (Blob.bytes "B") :=
  ⟨(claim_C6_amended_cleanup envAllOk "cat.jpg" "B" w0).1 (by decide),
   (claim_C6_amended_cleanup envPutImgFail "cat.jpg" "B" w0).2.1
     (by decide) (by decide)⟩

/-- C7: the `/files/{filename}` handler reports a rendered error (rather
than an unhandled fault — `get_file` is total) exactly when the image
object or the derived metadata object is missing from the store, or the
fetched record is not a JSON document with the two expected fields;
otherwise it returns the composed detail view. -/
theorem claim_C7_retrieval_error_characterisation (fn : String)
    (w : World) :
    isErrorOutcome (get_file fn w).2 = specRetrievalFails fn w ∧
    (specRetrievalFails fn w = false →
      ∃ T D, (get_file fn w).2 = .page T fn D ∧
        (get_file_route fn w).2 = .htmlPage (pageHtml T fn D)) := by
  refine ⟨get_file_err_char fn w, ?_⟩
  intro hok
  cases h1 : List.lookup fn w.gcs with
  | none => simp [specRetrievalFails, h1] at hok
  | some b =>
    cases h2 : List.lookup (deriveJsonName fn) w.gcs with
    | none => simp [specRetrievalFails, h1, h2] at hok
    | some b2 =>
      cases b2 with
      | bytes s => simp [specRetrievalFails, h1, h2] at hok
      | jsonDoc m =>
        simp only [specRetrievalFails, h1, h2] at hok
        cases ht : getField m "title" with
        | none => rw [ht] at hok; simp at hok
        | some T =>
          cases hd : getField m "description" with
          | none => rw [ht, hd] at hok; simp at hok
          | some D =>
            have hp : (get_file fn w).2 = GetOutcome.page T fn D := by
              rw [get_file_doc fn w b m h1 h2]
              simp only [ht, hd]
            exact ⟨T, D, hp, by simp [get_file_route, hp, renderGetOutcome]⟩

/-- C7 witness: over a store holding the published Cat pair, retrieval of
`cat.jpg` matches the error characterisation and composes the page; over
an empty store, retrieval of `missing.jpg` matches it as well (an
error). -/
theorem claim_C7_witness :
    isErrorOutcome (get_file "cat.jpg" wCat).2 =
      specRetrievalFails "cat.jpg" wCat ∧
    (∃ T D, (get_file "cat.jpg" wCat).2 = .page T "cat.jpg" D ∧
      (get_file_route "cat.jpg" wCat).2 = .htmlPage (pageHtml T "cat.jpg" D)) ∧
    isErrorOutcome (get_file "missing.jpg" w0).2 =
      specRetrievalFails "missing.jpg" w0 :=
  ⟨(claim_C7_retrieval_error_characterisation "cat.jpg" wCat).1,
   (claim_C7_retrieval_error_characterisation "cat.jpg" wCat).2 (by decide),
   (claim_C7_retrieval_error_characterisation "missing.jpg" w0).1⟩

/-- C8: every response of the `/files/{filename}` route carries HTTP
status 200 — in particular a failing retrieval returns the HTML error
fragment with the same success status a successful retrieval has, not a
failure status. -/
theorem claim_C8_error_same_status (fn : String) (w : World) :
    statusOf (get_file_route fn w).2 = 200 ∧
    (∀ msg, (get_file fn w).2 = .errorPage msg →
      (get_file_route fn w).2 = .htmlPage (errorHtml msg)) ∧
    (∀ o : GetOutcome, statusOf (renderGetOutcome o) = 200) := by
  refine ⟨?_, ?_, ?_⟩
  · cases h : (get_file fn w).2 <;>
      simp [get_file_route, h, renderGetOutcome, statusOf]
  · intro msg hmsg
    simp [get_file_route, hmsg, renderGetOutcome]
  · intro o
    cases o <;> rfl

/-- C8 witness: retrieving `missing.jpg` from an empty store renders the
not-found error fragment at status 200. -/
theorem claim_C8_witness :
    statusOf (get_file_route "missing.jpg" w0).2 = 200 ∧
    (get_file_route "missing.jpg" w0).2 =
      .htmlPage (errorHtml (errMsg .gcsNotFound)) :=
  ⟨(claim_C8_error_same_status "missing.jpg" w0).1,
   (claim_C8_error_same_status "missing.jpg" w0).2.1
     (errMsg .gcsNotFound) (by decide)⟩

/-- C9: after a successful upload of a filename, retrieval does not
change the object store, and running retrieval twice in a row yields the
same outcome (hence byte-identical Caption Records) both times. -/
theorem claim_C9_retrieval_idempotent (env : Env) (fn c : String)
    (w : World) (_h : isRedirect (upload env fn c w).2 = true) :
    (get_file fn (upload env fn c w).1).1.gcs = (upload env fn c w).1.gcs ∧
    (get_file fn ((get_file fn (upload env fn c w).1).1)).2 =
      (get_file fn (upload env fn c w).1).2 := by
  refine ⟨get_file_gcs_unchanged fn _, ?_⟩
  exact get_file_outcome_eq_of_gcs fn _ _ (get_file_gcs_unchanged fn _)

/-- C9 witness: after the successful upload of `cat.jpg`, retrieval
leaves the store unchanged and a second retrieval returns the same
outcome. -/
theorem claim_C9_witness :
    (get_file "cat.jpg" (upload envAllOk "cat.jpg" "B" w0).1).1.gcs =
      (upload envAllOk "cat.jpg" "B" w0).1.gcs ∧
    (get_file "cat.jpg"
      ((get_file "cat.jpg" (upload envAllOk "cat.jpg" "B" w0).1).1)).2 =
      (get_file "cat.jpg" (upload envAllOk "cat.jpg" "B" w0).1).2 :=
  claim_C9_retrieval_idempotent envAllOk "cat.jpg" "B" w0 (by decide)

/-- C10: for a filename containing neither `.jpg` nor `.jpeg` as a
substring, the derived metadata name equals the filename itself, so a
healthy run publishes the Caption Record JSON over the image's own
object-store key, the second staged-file deletion hits the already
deleted path, the staging area ends cleared, and the caller receives the
file-not-found 500 error although the object-store writes happened. -/
theorem claim_C10_no_extension_collision (env : Env) (fn c : String)
    (w : World) (m : JsonVal)
    (hjpg : ¬ (".jpg".data <:+: fn.data))
    (hjpeg : ¬ (".jpeg".data <:+: fn.data))
    (hsave : env.saveOk = true) (hput1 : env.gcsPutOk fn = true)
    (hcap : captionResult env = .ok m) (hjw : env.jsonWriteOk = true) :
    deriveJsonName fn = fn ∧
    (upload env fn c w).2 = .jsonError (errMsg .fileNotFound) 500 ∧
    List.lookup fn (upload env fn c w).1.gcs = some (Blob.jsonDoc m) ∧
    List.lookup (localPath fn) (upload env fn c w).1.localFs = none := by
  have hder : deriveJsonName fn = fn := deriveJsonName_eq_self fn hjpeg hjpg
  have hput2 : env.gcsPutOk (deriveJsonName fn) = true := by
    rw [hder]; exact hput1
  rw [upload_eval_cleanup_fail env fn c w m hsave hput1 hcap hjw hput2 hder]
  exact ⟨hder, rfl, lookup_mapPut_self _ _ _, lookup_mapDel_self _ _⟩

/-- C10 witness: uploading `noext` with healthy collaborators replaces
the image object by the default Caption Record under the key `noext`,
clears the staging area, and fails with the file-not-found 500 error. -/
theorem claim_C10_witness :
    deriveJsonName "noext" = "noext" ∧
    (upload envAllOk "noext" "B" w0).2 =
      .jsonError (errMsg .fileNotFound) 500 ∧
    List.lookup "noext" (upload envAllOk "noext" "B" w0).1.gcs =
      some (Blob.jsonDoc defaultMetadata) ∧
    List.lookup (localPath "noext")
      (upload envAllOk "noext" "B" w0).1.localFs = none :=
  claim_C10_no_extension_collision envAllOk "noext" "B" w0 defaultMetadata
    (by decide) (by decide) (by decide) (by decide) rfl (by decide)

end Main
